import Mathlib

/-!
Verification development for the BO-Video-Tagger repository.

The Python sources are shallowly embedded: SQLite tables become Lean lists of
row structures, pydantic models become Lean structures, machine floats become
exact rationals (ℚ), JSON text becomes an inductive `Json` value, and fallible
code returns `Option`/`Except`.  Third-party numerical steps (numpy's
L2-normalization of the query vector, IEEE-754 byte decoding) are represented
by their results, as noted at each definition.
-/

namespace BO

/-! ## Python numeric primitives -/

/-- Python's `round` on a value half-way between integers rounds to the even
neighbour (banker's rounding); otherwise to the nearest integer. -/
def pyRoundZ (q : ℚ) : ℤ :=
  if q - ⌊q⌋ < 1/2 then ⌊q⌋
  else if 1/2 < q - ⌊q⌋ then ⌊q⌋ + 1
  else if ⌊q⌋ % 2 = 0 then ⌊q⌋ else ⌊q⌋ + 1

/-- Python's `round(x, 3)`: round to 3 decimal places, ties to even. -/
def round3 (q : ℚ) : ℚ := (pyRoundZ (q * 1000) : ℚ) / 1000

/-- Python's `int()` applied to a float/rational: truncation toward zero. -/
def pyIntTrunc (q : ℚ) : ℤ := if 0 ≤ q then ⌊q⌋ else ⌈q⌉

theorem pyRoundZ_le (q : ℚ) (n : ℤ) (h : q ≤ n) : pyRoundZ q ≤ n := by
  have hf : ⌊q⌋ ≤ n := by
    have := Int.floor_mono h
    simpa using this
  rw [pyRoundZ]
  by_cases h1 : q - ⌊q⌋ < 1/2
  · rw [if_pos h1]; exact hf
  · rw [if_neg h1]
    have hlt : ⌊q⌋ + 1 ≤ n := by
      rcases eq_or_lt_of_le hf with heq | hlt'
      · exfalso
        apply h1
        have hq : q ≤ (⌊q⌋ : ℚ) := by rw [heq]; exact_mod_cast h
        linarith
      · omega
    by_cases h2 : 1/2 < q - ⌊q⌋
    · rw [if_pos h2]; exact hlt
    · rw [if_neg h2]
      by_cases h3 : ⌊q⌋ % 2 = 0
      · rw [if_pos h3]; exact hf
      · rw [if_neg h3]; exact hlt

theorem round3_le (q : ℚ) (n : ℤ) (h : q ≤ (n : ℚ) / 1000) : round3 q ≤ (n : ℚ) / 1000 := by
  unfold round3
  have h1 : q * 1000 ≤ (n : ℚ) := by linarith
  have h2 : pyRoundZ (q * 1000) ≤ n := pyRoundZ_le _ _ h1
  have : ((pyRoundZ (q * 1000) : ℤ) : ℚ) ≤ (n : ℚ) := by exact_mod_cast h2
  linarith

/-! ## Vectors (numpy float arrays modelled as rational lists) -/

/-- A numpy float array, modelled as a list of exact rationals. -/
abbrev Vec := List ℚ

/-- Dot product of two vectors (`numpy.dot` / `matrix @ q`). -/
def dot : Vec → Vec → ℚ
  | [], _ => 0
  | _, [] => 0
  | x :: xs, y :: ys => x * y + dot xs ys

/-! ## Generic stable descending insertion sort

Python's `list.sort(key=…, reverse=True)` is a stable sort placing larger keys
first; any stable descending sort realises it.  We use insertion sort so the
needed lemmas are self-contained. -/

/-- Insert `a` after every element whose key is at least `key a`
(stable descending insertion). -/
def insertByDesc (key : α → ℚ) (a : α) : List α → List α
  | [] => [a]
  | x :: xs => if key a ≤ key x then x :: insertByDesc key a xs else a :: x :: xs

/-- Stable sort, descending by `key`. -/
def sortByDesc (key : α → ℚ) (l : List α) : List α := l.foldr (insertByDesc key) []

theorem mem_insertByDesc (key : α → ℚ) (a b : α) (l : List α) :
    b ∈ insertByDesc key a l ↔ b = a ∨ b ∈ l := by
  induction l with
  | nil => simp [insertByDesc]
  | cons x xs ih =>
    rw [insertByDesc]
    by_cases h : key a ≤ key x
    · rw [if_pos h]
      simp only [List.mem_cons, ih]
      tauto
    · rw [if_neg h]
      simp [List.mem_cons]

theorem mem_sortByDesc (key : α → ℚ) (b : α) (l : List α) :
    b ∈ sortByDesc key l ↔ b ∈ l := by
  induction l with
  | nil => simp [sortByDesc]
  | cons x xs ih =>
    simp only [sortByDesc, List.foldr_cons] at *
    rw [mem_insertByDesc, ih, List.mem_cons]

theorem sorted_insertByDesc (key : α → ℚ) (a : α) (l : List α)
    (h : l.Pairwise (fun x y => key y ≤ key x)) :
    (insertByDesc key a l).Pairwise (fun x y => key y ≤ key x) := by
  induction l with
  | nil => simp [insertByDesc]
  | cons x xs ih =>
    rcases List.pairwise_cons.mp h with ⟨hx, hxs⟩
    by_cases hle : key a ≤ key x
    · rw [insertByDesc, if_pos hle]
      refine List.pairwise_cons.mpr ⟨?_, ih hxs⟩
      intro b hb
      rcases (mem_insertByDesc key a b xs).mp hb with rfl | hbm
      · exact hle
      · exact hx b hbm
    · rw [insertByDesc, if_neg hle]
      refine List.pairwise_cons.mpr ⟨?_, h⟩
      intro b hb
      rcases List.mem_cons.mp hb with rfl | hbm
      · exact le_of_not_le hle
      · exact le_trans (hx b hbm) (le_of_not_le hle)

theorem sorted_sortByDesc (key : α → ℚ) (l : List α) :
    (sortByDesc key l).Pairwise (fun x y => key y ≤ key x) := by
  induction l with
  | nil => simp [sortByDesc]
  | cons x xs ih => exact sorted_insertByDesc key x _ ih

/-! ## JSON values

`Json` models the JSON text produced by pydantic's `model_dump_json` and
consumed by `json.loads` + `MediaItem(**data)`; numbers are exact rationals. -/

inductive Json where
  | null
  | str (s : String)
  | num (q : ℚ)
  | bool (b : Bool)
  | arr (xs : List Json)
  | obj (fields : List (String × Json))

/-- Whether a JSON value is `null`, used to decode `Optional` fields. -/
def Json.isNull : Json → Bool
  | .null => true
  | _ => false

/-- Field lookup in a JSON object member list (first match wins). -/
def lookupField : List (String × Json) → String → Option Json
  | [], _ => none
  | (k', v) :: rest, k => if k' = k then some v else lookupField rest k

/-- Look a key up in a JSON object; `none` on non-objects. -/
def Json.getField : Json → String → Option Json
  | .obj fs, k => lookupField fs k
  | _, _ => none

/-! ## Data schema (`schemas.py`)

Pydantic models become Lean structures.  Floats are ℚ; `datetime` values are
represented by their ISO-8601 rendering (a `String`), which pydantic
round-trips losslessly. -/

/-- `MediaType(str, Enum)` from `schemas.py`. -/
inductive MediaType where
  | video
  | image
  | unknown
deriving DecidableEq

/-- The enum's string value. -/
def MediaType.value : MediaType → String
  | .video => "video"
  | .image => "image"
  | .unknown => "unknown"

/-- `MediaMetadata` from `schemas.py` (file-level metadata). -/
structure MediaMetadata where
  filename : String
  path : String
  size_mb : ℚ
  parent_folder : String
  created_at : Option String := none
  duration_sec : Option ℚ := none
  resolution : Option String := none
  fps : Option ℚ := none
  frame_count : Option ℤ := none
  width : Option ℤ := none
  height : Option ℤ := none
  format : Option String := none
deriving DecidableEq

/-- `AIResponse` from `schemas.py` (VLM output). -/
structure AIResponse where
  description : String
  summary : String
  tags : List String := []
deriving DecidableEq

/-- `TranscriptionSegment` from `schemas.py`. -/
structure TranscriptionSegment where
  start : ℚ
  «end» : ℚ
  text : String
deriving DecidableEq

/-- `TranscriptionData` from `schemas.py`. -/
structure TranscriptionData where
  full_text : String
  segments : List TranscriptionSegment := []
  language : String := "en"
  language_probability : ℚ := 0
deriving DecidableEq

/-- `SystemInfo` from `schemas.py` (processing diagnostics). -/
structure SystemInfo where
  model_name : String
  timestamp : String
  processing_time_sec : ℚ := 0
deriving DecidableEq

/-- `MediaItem` from `schemas.py`: the main unified record. -/
structure MediaItem where
  media_type : MediaType := .unknown
  meta : MediaMetadata
  ai : Option AIResponse := none
  transcription : Option TranscriptionData := none
  system : Option SystemInfo := none
deriving DecidableEq

/-- `SearchResponse` from `schemas.py`; `media_type` holds the enum's
serialized string value as read back from the database row. -/
structure SearchResponse where
  filename : String
  path : String
  score : ℚ
  media_type : String
  summary : String
  description : Option String := none
  tags : List String
  thumbnail_path : Option String := none

/-! ## JSON serialization (pydantic `model_dump_json` / `model_validate`) -/

/-- Encode an `Optional` field: `None` serializes to `null`. -/
def encodeOpt (f : α → Json) : Option α → Json
  | none => .null
  | some a => f a

/-- Decode an `Optional` field: `null` means absent. -/
def decodeOpt (f : Json → Option α) (j : Json) : Option (Option α) :=
  cond j.isNull (some none) ((f j).map some)

def decodeStr : Json → Option String
  | .str s => some s
  | _ => none

def decodeQ : Json → Option ℚ
  | .num q => some q
  | _ => none

/-- Integers are serialized as JSON numbers; decoding accepts only integral
values (pydantic `int` validation). -/
def decodeZ : Json → Option ℤ
  | .num q => if q.den = 1 then some q.num else none
  | _ => none

/-- Decode every element of a JSON array; fail if any element fails. -/
def decodeElems (f : Json → Option α) : List Json → Option (List α)
  | [] => some []
  | j :: js => do
      let a ← f j
      let rest ← decodeElems f js
      pure (a :: rest)

def decodeList (f : Json → Option α) : Json → Option (List α)
  | .arr xs => decodeElems f xs
  | _ => none

/-- Integers are serialized as JSON numbers. -/
def encodeZ (i : ℤ) : Json := .num (i : ℚ)

def encodeMediaType (mt : MediaType) : Json := .str mt.value

/-- Enum membership validation: only the three literal values are accepted. -/
def decodeMediaType (j : Json) : Option MediaType :=
  match j with
  | .str "video" => some .video
  | .str "image" => some .image
  | .str "unknown" => some .unknown
  | _ => none

def encodeMediaMetadata (m : MediaMetadata) : Json :=
  .obj [("filename", .str m.filename), ("path", .str m.path),
        ("size_mb", .num m.size_mb), ("parent_folder", .str m.parent_folder),
        ("created_at", encodeOpt .str m.created_at),
        ("duration_sec", encodeOpt .num m.duration_sec),
        ("resolution", encodeOpt .str m.resolution),
        ("fps", encodeOpt .num m.fps),
        ("frame_count", encodeOpt encodeZ m.frame_count),
        ("width", encodeOpt encodeZ m.width),
        ("height", encodeOpt encodeZ m.height),
        ("format", encodeOpt .str m.format)]

def decodeMediaMetadata (j : Json) : Option MediaMetadata := do
  let filename ← (j.getField "filename").bind decodeStr
  let path ← (j.getField "path").bind decodeStr
  let size_mb ← (j.getField "size_mb").bind decodeQ
  let parent_folder ← (j.getField "parent_folder").bind decodeStr
  let created_at ← (j.getField "created_at").bind (decodeOpt decodeStr)
  let duration_sec ← (j.getField "duration_sec").bind (decodeOpt decodeQ)
  let resolution ← (j.getField "resolution").bind (decodeOpt decodeStr)
  let fps ← (j.getField "fps").bind (decodeOpt decodeQ)
  let frame_count ← (j.getField "frame_count").bind (decodeOpt decodeZ)
  let width ← (j.getField "width").bind (decodeOpt decodeZ)
  let height ← (j.getField "height").bind (decodeOpt decodeZ)
  let format ← (j.getField "format").bind (decodeOpt decodeStr)
  pure { filename, path, size_mb, parent_folder, created_at, duration_sec,
         resolution, fps, frame_count, width, height, format }

def encodeAIResponse (a : AIResponse) : Json :=
  .obj [("description", .str a.description), ("summary", .str a.summary),
        ("tags", .arr (a.tags.map .str))]

def decodeAIResponse (j : Json) : Option AIResponse := do
  let description ← (j.getField "description").bind decodeStr
  let summary ← (j.getField "summary").bind decodeStr
  let tags ← (j.getField "tags").bind (decodeList decodeStr)
  pure { description, summary, tags }

def encodeSegment (s : TranscriptionSegment) : Json :=
  .obj [("start", .num s.start), ("end", .num s.«end»), ("text", .str s.text)]

def decodeSegment (j : Json) : Option TranscriptionSegment := do
  let start ← (j.getField "start").bind decodeQ
  let e ← (j.getField "end").bind decodeQ
  let text ← (j.getField "text").bind decodeStr
  pure { start, «end» := e, text }

def encodeTranscription (t : TranscriptionData) : Json :=
  .obj [("full_text", .str t.full_text),
        ("segments", .arr (t.segments.map encodeSegment)),
        ("language", .str t.language),
        ("language_probability", .num t.language_probability)]

def decodeTranscription (j : Json) : Option TranscriptionData := do
  let full_text ← (j.getField "full_text").bind decodeStr
  let segments ← (j.getField "segments").bind (decodeList decodeSegment)
  let language ← (j.getField "language").bind decodeStr
  let language_probability ← (j.getField "language_probability").bind decodeQ
  pure { full_text, segments, language, language_probability }

def encodeSystemInfo (s : SystemInfo) : Json :=
  .obj [("model_name", .str s.model_name), ("timestamp", .str s.timestamp),
        ("processing_time_sec", .num s.processing_time_sec)]

def decodeSystemInfo (j : Json) : Option SystemInfo := do
  let model_name ← (j.getField "model_name").bind decodeStr
  let timestamp ← (j.getField "timestamp").bind decodeStr
  let processing_time_sec ← (j.getField "processing_time_sec").bind decodeQ
  pure { model_name, timestamp, processing_time_sec }

/-- `MediaItem.model_dump_json()`. -/
def encodeMediaItem (i : MediaItem) : Json :=
  .obj [("media_type", encodeMediaType i.media_type),
        ("meta", encodeMediaMetadata i.meta),
        ("ai", encodeOpt encodeAIResponse i.ai),
        ("transcription", encodeOpt encodeTranscription i.transcription),
        ("system", encodeOpt encodeSystemInfo i.system)]

/-- `MediaItem(**data)` / `model_validate` on parsed JSON. -/
def decodeMediaItem (j : Json) : Option MediaItem := do
  let media_type ← (j.getField "media_type").bind decodeMediaType
  let meta ← (j.getField "meta").bind decodeMediaMetadata
  let ai ← (j.getField "ai").bind (decodeOpt decodeAIResponse)
  let transcription ← (j.getField "transcription").bind (decodeOpt decodeTranscription)
  let system ← (j.getField "system").bind (decodeOpt decodeSystemInfo)
  pure { media_type, meta, ai, transcription, system }

/-! ### Round-trip lemmas for the serialization -/

theorem decodeOpt_encodeOpt (f : Json → Option α) (g : α → Json)
    (h : ∀ a, f (g a) = some a) (hn : ∀ a, (g a).isNull = false) (o : Option α) :
    decodeOpt f (encodeOpt g o) = some o := by
  cases o with
  | none => rfl
  | some a => simp [decodeOpt, encodeOpt, h, hn]

theorem decodeElems_map (f : α → Json) (g : Json → Option α)
    (h : ∀ a, g (f a) = some a) (l : List α) : decodeElems g (l.map f) = some l := by
  induction l with
  | nil => rfl
  | cons x xs ih => simp [decodeElems, h, ih]

theorem decodeMediaType_encode (mt : MediaType) :
    decodeMediaType (encodeMediaType mt) = some mt := by
  cases mt <;> rfl

theorem decodeZ_encode (i : ℤ) : decodeZ (encodeZ i) = some i := by
  simp [decodeZ, encodeZ]

theorem decodeMediaMetadata_encode (m : MediaMetadata) :
    decodeMediaMetadata (encodeMediaMetadata m) = some m := by
  cases m
  simp [encodeMediaMetadata, decodeMediaMetadata, Json.getField, lookupField,
        decodeStr, decodeQ,
        decodeOpt_encodeOpt decodeStr Json.str (fun _ => rfl) (fun _ => rfl),
        decodeOpt_encodeOpt decodeQ Json.num (fun _ => rfl) (fun _ => rfl),
        decodeOpt_encodeOpt decodeZ encodeZ decodeZ_encode (fun _ => rfl)]

theorem decodeAIResponse_encode (a : AIResponse) :
    decodeAIResponse (encodeAIResponse a) = some a := by
  cases a
  simp [encodeAIResponse, decodeAIResponse, Json.getField, lookupField,
        decodeStr, decodeList,
        decodeElems_map Json.str decodeStr (fun _ => rfl)]

theorem decodeSegment_encode (s : TranscriptionSegment) :
    decodeSegment (encodeSegment s) = some s := by
  cases s
  simp [encodeSegment, decodeSegment, Json.getField, lookupField, decodeStr, decodeQ]

theorem decodeTranscription_encode (t : TranscriptionData) :
    decodeTranscription (encodeTranscription t) = some t := by
  cases t
  simp [encodeTranscription, decodeTranscription, Json.getField, lookupField,
        decodeStr, decodeQ, decodeList,
        decodeElems_map encodeSegment decodeSegment decodeSegment_encode]

theorem decodeSystemInfo_encode (s : SystemInfo) :
    decodeSystemInfo (encodeSystemInfo s) = some s := by
  cases s
  simp [encodeSystemInfo, decodeSystemInfo, Json.getField, lookupField, decodeStr, decodeQ]

theorem decodeMediaItem_encode (i : MediaItem) :
    decodeMediaItem (encodeMediaItem i) = some i := by
  cases i
  simp [encodeMediaItem, decodeMediaItem, Json.getField, lookupField,
        decodeMediaType_encode, decodeMediaMetadata_encode,
        decodeOpt_encodeOpt decodeAIResponse encodeAIResponse decodeAIResponse_encode
          (fun a => by cases a; rfl),
        decodeOpt_encodeOpt decodeTranscription encodeTranscription decodeTranscription_encode
          (fun a => by cases a; rfl),
        decodeOpt_encodeOpt decodeSystemInfo encodeSystemInfo decodeSystemInfo_encode
          (fun a => by cases a; rfl)]

/-! ## Storage engine (`bo_db.py`)

The SQLite `videos` table is a list of `Row`s (nullable columns are `Option`);
the FTS5 shadow table `videos_search` is a list of `FtsRow`s (the FTS5
extension is taken to be available, `has_fts = True`); the in-memory vector
cache maps a path to the raw float32 blob it was decoded from. -/

/-- One row of the `videos` base table. -/
structure Row where
  path : String
  filename : String
  size_mb : Option ℚ
  duration_sec : Option ℚ
  resolution : Option String
  tags : Option String
  summary : Option String
  description : Option String
  metadata : Option Json
  processed_at : Option String
  parent_folder : Option String
  media_type : Option String
  transcription : Option String
  embedding : Option (List ℕ)

/-- One row of the `videos_search` FTS5 shadow table. -/
structure FtsRow where
  path : String
  filename : String
  tags : String
  summary : String
  description : String
  transcription : String

/-- The state owned by one `VideoDB` instance. -/
structure DBState where
  videos : List Row
  search : List FtsRow
  cache : List (String × List ℕ)

/-! ### Write path — `VideoDB.upsert_media` -/

/-- `",".join(item.ai.tags) if item.ai else ""`. -/
def prepTags (item : MediaItem) : String :=
  match item.ai with
  | some ai => String.intercalate "," ai.tags
  | none => ""

/-- `item.ai.summary if item.ai else ""`. -/
def prepSummary (item : MediaItem) : String :=
  match item.ai with
  | some ai => ai.summary
  | none => ""

/-- `item.ai.description if item.ai else ""`. -/
def prepDescription (item : MediaItem) : String :=
  match item.ai with
  | some ai => ai.description
  | none => ""

/-- `item.transcription.full_text if item.transcription else ""`. -/
def prepTranscription (item : MediaItem) : String :=
  match item.transcription with
  | some t => t.full_text
  | none => ""

/-- `item.system.timestamp.isoformat() if item.system else datetime.now().isoformat()`;
the current wall-clock time is passed in as `now`. -/
def prepProcessedAt (item : MediaItem) (now : String) : String :=
  match item.system with
  | some s => s.timestamp
  | none => now

/-- The VALUES tuple of the INSERT statement in `upsert_media`. -/
def upsertNewRow (item : MediaItem) (now : String) (ebytes : Option (List ℕ)) : Row :=
  {
    path := item.meta.path, filename := item.meta.filename,
    size_mb := some item.meta.size_mb, duration_sec := item.meta.duration_sec,
    resolution := item.meta.resolution,
    tags := some (prepTags item), summary := some (prepSummary item),
    description := some (prepDescription item),
    metadata := some (encodeMediaItem item),
    processed_at := some (prepProcessedAt item now),
    parent_folder := some item.meta.parent_folder,
    media_type := some item.media_type.value,
    transcription := some (prepTranscription item),
    embedding := ebytes }

/-- The `ON CONFLICT(path) DO UPDATE SET` clause: it updates tags, summary,
description, metadata, processed_at, parent_folder, transcription, embedding
and media_type, and leaves filename, size_mb, duration_sec and resolution as
they were. -/
def applyConflictUpdate (old new : Row) : Row :=
  { old with
    tags := new.tags, summary := new.summary,
    description := new.description, metadata := new.metadata,
    processed_at := new.processed_at, parent_folder := new.parent_folder,
    transcription := new.transcription, embedding := new.embedding,
    media_type := new.media_type }

/-- `INSERT … ON CONFLICT(path) DO UPDATE` against the primary key `path`. -/
def insertOnConflictPath (videos : List Row) (r : Row) : List Row :=
  if videos.any (fun v => v.path == r.path) then
    videos.map (fun v => if v.path = r.path then applyConflictUpdate v r else v)
  else videos ++ [r]

/-- The FTS row written for an item. -/
def ftsRowOf (item : MediaItem) : FtsRow :=
  {
    path := item.meta.path, filename := item.meta.filename,
    tags := prepTags item, summary := prepSummary item,
    description := prepDescription item, transcription := prepTranscription item }

/-- `DELETE FROM videos_search WHERE path = ?` then `INSERT INTO videos_search …`. -/
def updateSearchRows (search : List FtsRow) (item : MediaItem) : List FtsRow :=
  (search.filter (fun s => !(s.path == item.meta.path))) ++ [ftsRowOf item]

/-- Python dict update `cache[path] = value`. -/
def cacheInsert (cache : List (String × List ℕ)) (path : String) (bs : List ℕ) :
    List (String × List ℕ) :=
  if cache.any (fun pv => pv.1 == path) then
    cache.map (fun pv => if pv.1 = path then (path, bs) else pv)
  else cache ++ [(path, bs)]

/-- Sub-steps 1 and 2 of `upsert_media` (base-row write and FTS shadow-row
delete+reinsert), which the code commits together. -/
def upsertDurable (db : DBState) (item : MediaItem) (now : String)
    (ebytes : Option (List ℕ)) : DBState :=
  { db with
    videos := insertOnConflictPath db.videos (upsertNewRow item now ebytes),
    search := updateSearchRows db.search item }

/-- `VideoDB.upsert_media`.  Returns the new state together with a flag that
is `true` exactly when an exception was caught and logged.  A record with an
empty path returns before doing anything.  `conn.commit()` runs after
sub-steps 1 and 2; sub-step 3 then decodes the supplied blob with
`np.frombuffer(…, dtype=np.float32)`, which raises exactly when the byte
length is not a multiple of 4 — that exception is caught and logged, and the
`conn.rollback()` in the handler is a no-op because the commit has already
happened. -/
def upsert_media (db : DBState) (item : MediaItem) (now : String)
    (ebytes : Option (List ℕ)) : DBState × Bool :=
  if item.meta.path = "" then (db, false)
  else
    let committed := upsertDurable db item now ebytes
    match ebytes with
    | none => (committed, false)
    | some bs =>
        if bs.isEmpty then (committed, false)
        else if bs.length % 4 = 0 then
          ({ committed with cache := cacheInsert committed.cache item.meta.path bs }, false)
        else (committed, true)

/-! ### Read path — listing and counting -/

/-- SQLite `x LIKE '%pat%'` (ASCII case-insensitive substring match). -/
def likeMatch (s pat : String) : Bool :=
  (List.range (s.toLower.toList.length + 1)).any
    (fun i => pat.toLower.toList.isPrefixOf (s.toLower.toList.drop i))

/-- SQLite's BINARY collation: byte-wise (here code-point-wise) lexicographic
comparison of two text values. -/
def charListLe : List Char → List Char → Bool
  | [], _ => true
  | _ :: _, [] => false
  | a :: as, b :: bs => if a < b then true else if b < a then false else charListLe as bs

def strLeB (a b : String) : Bool := charListLe a.toList b.toList

/-- The WHERE clause built by `get_all_media` (SQL `NULL` comparisons are
not matches). -/
def matchesListing (media_type : String) (tag dateFrom dateTo : Option String)
    (r : Row) : Bool :=
  (media_type == "all" || r.media_type == some media_type)
  && (match tag with
      | none => true
      | some t => match r.tags with
        | none => false
        | some ts => likeMatch ts t)
  && (match dateFrom with
      | none => true
      | some d => match r.processed_at with
        | none => false
        | some p => strLeB d p)
  && (match dateTo with
      | none => true
      | some d => match r.processed_at with
        | none => false
        | some p => strLeB p d)

/-- The WHERE clause built by `get_total_count`: only the media-type and tag
filters — `get_total_count` takes no date parameters. -/
def matchesCount (media_type : String) (tag : Option String) (r : Row) : Bool :=
  (media_type == "all" || r.media_type == some media_type)
  && (match tag with
      | none => true
      | some t => match r.tags with
        | none => false
        | some ts => likeMatch ts t)

/-- `VideoDB.get_total_count`: `SELECT COUNT(*) FROM videos WHERE …`. -/
def get_total_count (db : DBState) (media_type : String) (tag : Option String) : ℕ :=
  (db.videos.filter (matchesCount media_type tag)).length

/-- Generic stable insertion sort by a Bool-valued "comes before or equal"
relation, modelling SQL ORDER BY. -/
def insertByLe (le : α → α → Bool) (a : α) : List α → List α
  | [] => [a]
  | x :: xs => if le x a then x :: insertByLe le a xs else a :: x :: xs

def sortByLe (le : α → α → Bool) (l : List α) : List α := l.foldr (insertByLe le) []

/-- SQLite ordering on a nullable text column: `NULL` sorts before any text. -/
def optStrLeB : Option String → Option String → Bool
  | none, _ => true
  | some _, none => false
  | some a, some b => strLeB a b

/-- SQLite ordering on a nullable numeric column: `NULL` sorts first. -/
def optQLeB : Option ℚ → Option ℚ → Bool
  | none, _ => true
  | some _, none => false
  | some a, some b => decide (a ≤ b)

/-- The ORDER BY branch of `get_all_media` (default `date_desc`). -/
def sortRows (sort_by : String) (rows : List Row) : List Row :=
  if sort_by == "date_asc" then
    sortByLe (fun a b => optStrLeB a.processed_at b.processed_at) rows
  else if sort_by == "duration_desc" then
    sortByLe (fun a b => optQLeB b.duration_sec a.duration_sec) rows
  else if sort_by == "duration_asc" then
    sortByLe (fun a b => optQLeB a.duration_sec b.duration_sec) rows
  else
    sortByLe (fun a b => optStrLeB b.processed_at a.processed_at) rows

/-- The rows selected by `get_all_media`'s SQL query: filter, sort, then
paginate with `LIMIT ? OFFSET ?`. -/
def listingPage (db : DBState) (limit offset : ℕ) (media_type sort_by : String)
    (tag dateFrom dateTo : Option String) : List Row :=
  ((sortRows sort_by (db.videos.filter
    (matchesListing media_type tag dateFrom dateTo))).drop offset).take limit

/-- `VideoDB.get_all_media`: run the paged query, then `json.loads` +
`MediaItem(**data)` each row's metadata column, silently skipping any row
whose metadata fails to parse (`except Exception: continue`; a `NULL`
metadata column also raises inside `json.loads` and is skipped). -/
def get_all_media (db : DBState) (limit offset : ℕ) (media_type sort_by : String)
    (tag dateFrom dateTo : Option String) : List MediaItem :=
  (listingPage db limit offset media_type sort_by tag dateFrom dateTo).filterMap
    (fun r => r.metadata.bind decodeMediaItem)

/-! ### Read path — `VideoDB.search_media` (hybrid search)

The FTS5 `MATCH` query is a third-party ranked engine; its output — the list
of matched paths, already capped at `limit` by the SQL `LIMIT` — enters as the
`ftsPaths` argument, and every such path receives the flat keyword score 1.0.
The query vector's L2 normalization `q / ‖q‖` is floating-point work done by
numpy; the embedding receives its result `qunit`, which is `none` exactly when
no query vector was supplied or its norm was zero (`if norm_q > 0` fails).
`cache` is the in-memory vector cache with its float32 arrays decoded. -/

def SEARCH_FTS_WEIGHT : ℚ := 3/10
def SEARCH_VEC_WEIGHT : ℚ := 7/10
def SEARCH_CUTOFF : ℚ := 18/100

/-- `sims = matrix @ q_unit`: similarity of every cached vector with the unit
query vector, in cache order. -/
def simsOf (cache : List (String × Vec)) (q : Vec) : List (String × ℚ) :=
  cache.map (fun pv => (pv.1, dot pv.2 q))

/-- `np.argpartition(sims, -limit)[-limit:]` when there are more candidates
than `limit`, otherwise all of them.  numpy leaves the choice among tied
elements unspecified; the embedding takes the stable descending order. -/
def topSelect (limit : ℕ) (sims : List (String × ℚ)) : List (String × ℚ) :=
  if limit < sims.length then (sortByDesc (fun ps => ps.2) sims).take limit else sims

/-- The semantic stage: the `vec_scores` dict, as an association list. -/
def vecStage (cache : List (String × Vec)) (qunit : Option Vec) (limit : ℕ) :
    List (String × ℚ) :=
  match qunit with
  | none => []
  | some q =>
      if cache.isEmpty then []
      else (topSelect limit (simsOf cache q)).filter
        (fun ps => decide (SEARCH_CUTOFF < ps.2))

/-- `fts_scores.get(path, 0.0)`: surfaced keyword matches score a flat 1.0. -/
def ftsScore (ftsPaths : List String) (p : String) : ℚ := if p ∈ ftsPaths then 1 else 0

/-- `vec_scores.get(path, 0.0)`. -/
def lookupScore (scores : List (String × ℚ)) (p : String) : ℚ := (scores.lookup p).getD 0

/-- `row[2].split(",") if row[2] else []`. -/
def splitTagsCol : Option String → List String
  | none => []
  | some "" => []
  | some t => t.splitOn ","

/-- The per-path light fetch and `SearchResponse` construction in the merge
loop; `none` when no row exists for the path (`if row:`). -/
def mkSearchResult (videos : List Row) (ftsPaths : List String)
    (vscores : List (String × ℚ)) (p : String) : Option SearchResponse :=
  match videos.find? (fun r => r.path == p) with
  | none => none
  | some row => some
      {
        filename := row.filename, path := p,
        score := round3 (ftsScore ftsPaths p * SEARCH_FTS_WEIGHT
                          + lookupScore vscores p * SEARCH_VEC_WEIGHT),
        media_type := row.media_type.getD "",
        summary := row.summary.getD "",
        tags := splitTagsCol row.tags }

/-- `VideoDB.search_media`: merge the two stages over the union of surfaced
paths, score, sort descending by score, truncate to `limit`. -/
def search_media (db : DBState) (ftsPaths : List String) (qunit : Option Vec)
    (cache : List (String × Vec)) (limit : ℕ) : List SearchResponse :=
  let vscores := vecStage cache qunit limit
  let allPaths := (ftsPaths ++ (vscores.map Prod.fst).filter
      (fun p => !ftsPaths.contains p)).dedup
  let results := allPaths.filterMap (mkSearchResult db.videos ftsPaths vscores)
  (sortByDesc (fun r => r.score) results).take limit

/-! ### Lazy schema migration (`VideoDB._migrate_schema`) -/

/-- A row of a legacy database whose `videos` table predates the
`parent_folder`, `media_type`, `transcription` and `embedding` columns. -/
structure LegacyRow where
  path : String
  filename : String
  size_mb : Option ℚ
  duration_sec : Option ℚ
  resolution : Option String
  tags : Option String
  summary : Option String
  description : Option String
  metadata : Option Json
  processed_at : Option String

/-- What `_migrate_schema` does to one pre-existing row when all four columns
are missing: each `ALTER TABLE videos ADD COLUMN …` gives every existing row
the new column's default — `NULL` for `parent_folder` (`TEXT`),
`'video'` for `media_type` (`TEXT DEFAULT 'video'`), `NULL` for
`transcription` (`TEXT`) and for `embedding` (`BLOB`).  No statement in
`_migrate_schema` updates `parent_folder` afterward. -/
def migrateRow (r : LegacyRow) : Row :=
  {
    path := r.path, filename := r.filename, size_mb := r.size_mb,
    duration_sec := r.duration_sec, resolution := r.resolution,
    tags := r.tags, summary := r.summary, description := r.description,
    metadata := r.metadata, processed_at := r.processed_at,
    parent_folder := none, media_type := some "video",
    transcription := none, embedding := none }

/-- `_migrate_schema` over the whole legacy table. -/
def migrate_schema (rows : List LegacyRow) : List Row := rows.map migrateRow

/-- `_load_vector_cache`: every row with a non-null, non-empty embedding blob
is loaded into the in-memory cache. -/
def loadVectorCache (rows : List Row) : List (String × List ℕ) :=
  rows.filterMap (fun r =>
    match r.embedding with
    | some bs => if bs.isEmpty then none else some (r.path, bs)
    | none => none)

/-- Opening a store over a legacy database: `VideoDB.__init__` runs
`_init_db` (which calls `_migrate_schema`) and then `_load_vector_cache`;
the FTS shadow table is created empty when absent. -/
def openLegacyStore (rows : List LegacyRow) : DBState :=
  { videos := migrate_schema rows, search := [],
    cache := loadVectorCache (migrate_schema rows) }

/-- The parent-directory name derived from a stored path,
`os.path.basename(os.path.dirname(path))` — the derivation the spec's
backfill clause describes. -/
def parentFolderName (p : String) : String := ((p.splitOn "/").dropLast).getLastD ""

/-! ## Dashboard background worker (`bo_worker.py`) -/

/-- The attributes (methods) the `VideoDB` class in `bo_db.py` defines. -/
def videoDBMethods : List String :=
  ["__init__", "__enter__", "__exit__", "_init_db", "_migrate_schema",
   "_add_column", "_load_vector_cache", "upsert_media", "get_all_media",
   "get_total_count", "get_media", "search_media", "get_all_file_paths_set",
   "close", "migrate_jsonl"]

/-- Python attribute dispatch for the worker's `self.db.upsert_video(result)`
call: `upsert_video` is resolved on the `VideoDB` instance at call time and,
being absent from the class, raises `AttributeError`.  (The first branch is
dead: no write semantics exist for the absent method.) -/
def callUpsertVideo (db : DBState) (_result : Json) : Except String DBState :=
  if videoDBMethods.contains "upsert_video" then .ok db
  else .error "AttributeError: VideoDB object has no attribute upsert_video"

/-- `"error" in result` on the dict returned by `process_video`. -/
def resultHasError (result : Json) : Bool :=
  match result with
  | .obj fs => fs.any (fun kv => kv.1 == "error")
  | _ => false

/-- The outcome of `tagger.process_video(file_path)` for one file: the call
either returns a result dict or raises. -/
inductive ProcOutcome where
  | returns (result : Json)
  | raises (msg : String)

/-- The per-file `try` body in `VideoWorker._run_job` for a non-skipped file.
Returns the store state afterward and whether an error was logged; every
branch falls through to the next file. -/
def runJobStep (db : DBState) (outcome : ProcOutcome) : DBState × Bool :=
  match outcome with
  | .raises _ => (db, true)
  | .returns result =>
      if resultHasError result then (db, true)
      else
        match callUpsertVideo db result with
        | .ok db2 => (db2, false)
        | .error _ => (db, true)

/-- The worker's processing loop over the non-skipped files, given each
file's `process_video` outcome: it visits every file — no per-file outcome
aborts it — and counts the files processed. -/
def runJobLoop (db : DBState) (outcomes : List ProcOutcome) : DBState × ℕ :=
  outcomes.foldl (fun acc o => ((runJobStep acc.1 o).1, acc.2 + 1)) (db, 0)

/-! ## Unified media processor (`MediaProcessor.process_file`, `processor.py`) -/

/-- The exception classes distinguishable by a caller of `process_file`. -/
inductive PyErr where
  | fileNotFound (msg : String)
  | processingError (msg : String)
  | unclassified (msg : String)
deriving DecidableEq

def IMAGE_EXTS : List String := [".jpg", ".jpeg", ".png", ".webp", ".bmp"]
def VIDEO_EXTS : List String := [".mp4", ".mov", ".avi", ".mkv", ".webm"]

/-- The extension-based classification in `process_file` (images checked
first, then videos, otherwise unsupported). -/
def classifyExt (ext : String) : Option MediaType :=
  if IMAGE_EXTS.contains ext then some .image
  else if VIDEO_EXTS.contains ext then some .video
  else none

/-- The observable behaviour of one `process_file` call's sub-steps:
`os.path.exists`, `load_vlm`, the lower-cased extension of the path,
`_extract_video_frames` + `transcribe`, `_process_image`,
`_run_vlm_inference`, and `generate_embedding`.  A fallible step is
`.error msg` when the underlying Python raises with message `msg`. -/
structure ProcEnv where
  pathExists : Bool
  loadVlm : Except String Unit
  ext : String
  videoStep : Except String (List String × MediaMetadata × Option TranscriptionData)
  imageStep : Except String (List String × MediaMetadata)
  inferStep : Except String AIResponse
  embedStep : Except String (List ℕ)
  now : String
  elapsed : ℚ

/-- `MediaProcessor.process_file`: the not-found check runs before anything
else; afterwards each sub-step failure is wrapped in `ProcessingError` with
its specific message — the inner `try`s wrap extraction and inference, the
trailing `except ProcessingError: raise` / `except Exception` pair re-raises
processing errors and wraps anything else as a `Critical Failure`. -/
def process_file (env : ProcEnv) (path : String) : Except PyErr (MediaItem × List ℕ) :=
  if !env.pathExists then
    .error (.fileNotFound ("File not found: " ++ path))
  else
    match env.loadVlm with
    | .error e => .error (.processingError ("Failed to load AI Model: " ++ e))
    | .ok _ =>
      match classifyExt env.ext with
      | none => .error (.processingError ("Unsupported file format: " ++ env.ext))
      | some mt =>
        let extracted : Except PyErr (List String × MediaMetadata × Option TranscriptionData) :=
          match mt with
          | .video =>
              match env.videoStep with
              | .ok r => .ok r
              | .error e => .error (.processingError ("Video Extraction Failed: " ++ e))
          | _ =>
              match env.imageStep with
              | .ok fm => .ok (fm.1, fm.2, none)
              | .error e => .error (.processingError ("Image Processing Failed: " ++ e))
        match extracted with
        | .error e => .error e
        | .ok ftm =>
          match env.inferStep with
          | .error e => .error (.processingError ("AI Inference Failed: " ++ e))
          | .ok ai =>
            let item : MediaItem :=
              { media_type := mt, meta := ftm.2.1, ai := some ai,
                transcription := ftm.2.2,
                system := some { model_name := "SmolVLM + Whisper",
                                 timestamp := env.now,
                                 processing_time_sec := env.elapsed } }
            match env.embedStep with
            | .ok bs => .ok (item, bs)
            | .error e => .error (.processingError ("Critical Failure: " ++ e))

/-! ## Standalone tagging engine (`VideoTagger.extract_frames`,
`bo_video_tagger.py`) -/

/-- `int(fps * self.interval) if fps > 0 else 300`. -/
def frameInterval (fps : ℚ) (interval : ℕ) : ℤ :=
  if 0 < fps then pyIntTrunc (fps * (interval : ℚ)) else 300

/-- A video frame, reduced to the only datum the sampling loop inspects:
its pixel variance `np.var(frame)`. -/
abbrev FrameVar := ℚ

/-- Pair every frame with its index, starting from `n`. -/
def idxFrom (n : ℕ) : List FrameVar → List (ℕ × FrameVar)
  | [] => []
  | v :: r => (n, v) :: idxFrom (n + 1) r

/-- The frame-walking loop of `extract_frames`: `count` is the index of the
frame about to be read; the loop stops once `maxFrames` frames have been kept
(checked before each read) or the stream ends; every stride-th frame is a
candidate and candidates with variance below 10 are skipped (with `count`
still advancing once per frame read).  Returns the kept frame indices. -/
def extractLoop (stride maxFrames : ℕ) : List FrameVar → ℕ → ℕ → List ℕ
  | [], _, _ => []
  | v :: rest, count, kept =>
    if maxFrames ≤ kept then []
    else if count % stride = 0 then
      if v < 10 then extractLoop stride maxFrames rest (count + 1) kept
      else count :: extractLoop stride maxFrames rest (count + 1) (kept + 1)
    else extractLoop stride maxFrames rest (count + 1) kept

/-- `VideoTagger.extract_frames`, reduced to the kept frame indices.  `none`
models the `ZeroDivisionError` that `count % frame_interval` raises when the
computed stride is zero. -/
def extract_frames (frames : List FrameVar) (fps : ℚ) (interval maxFrames : ℕ) :
    Option (List ℕ) :=
  if frameInterval fps interval = 0 then none
  else some (extractLoop (frameInterval fps interval).toNat maxFrames frames 0 0)

/-! # Claims

One theorem per claim of the specification, in claim order; counterexample
theorems carry a `_cx` style name noted in the results. -/

/-! ## C9 — JSON round-trip of the typed record -/

/-- Claim C9: serializing a typed media record (with its nested AI, metadata,
transcription-segment and system sections) to its JSON form and
reconstructing a record from that JSON yields a value equal to the original
in every field; optional absent fields serialize to `null` and decode back to
absent, and `duration_sec` survives exactly. -/
theorem media_item_json_roundtrip (item : MediaItem) :
    decodeMediaItem (encodeMediaItem item) = some item
    ∧ (decodeMediaItem (encodeMediaItem item)).map (fun i => i.meta.duration_sec)
        = some item.meta.duration_sec := by
  refine ⟨decodeMediaItem_encode item, ?_⟩
  rw [decodeMediaItem_encode item]
  rfl

/-! ## C2 — the background worker never reaches the store's write operation -/

theorem runJobLoop_count (db : DBState) (outcomes : List ProcOutcome) :
    (runJobLoop db outcomes).2 = outcomes.length := by
  suffices h : ∀ (l : List ProcOutcome) (d : DBState) (n : ℕ),
      (l.foldl (fun acc o => ((runJobStep acc.1 o).1, acc.2 + 1)) (d, n)).2
        = n + l.length by
    simpa [runJobLoop] using h outcomes db 0
  intro l
  induction l with
  | nil => intro d n; simp
  | cons x xs ih =>
    intro d n
    rw [List.foldl_cons, ih]
    simp
    omega

/-- Claim C2 is refuted by the code: for a `process_video` result without an
error key, the worker's write `self.db.upsert_video(result)` raises
`AttributeError` — `VideoDB` defines `upsert_media` but no `upsert_video` —
which the per-file handler catches and logs, so the store is left completely
unchanged and the result is never upserted.  The claim's second half does
hold: a raising file only logs, and the loop always continues through every
file. -/
theorem worker_never_stores_results (db : DBState) (outcomes : List ProcOutcome)
    (msg : String) :
    resultHasError (Json.obj [("meta", Json.null)]) = false
    ∧ runJobStep db (.returns (Json.obj [("meta", Json.null)])) = (db, true)
    ∧ runJobStep db (.raises msg) = (db, true)
    ∧ (runJobLoop db outcomes).2 = outcomes.length :=
  ⟨rfl, rfl, rfl, runJobLoop_count db outcomes⟩

/-! ## C7 — the companion count ignores the date filters -/

/-- A store row processed on 2024-01-01. -/
def rowDated : Row :=
  { path := "/v.mp4", filename := "v.mp4", size_mb := none, duration_sec := none,
    resolution := none, tags := some "x", summary := none, description := none,
    metadata := none, processed_at := some "2024-01-01T00:00:00",
    parent_folder := none, media_type := some "video", transcription := none,
    embedding := none }

/-- Claim C7 counterexample: for a date_from of "2025-01-01" the listing's
filters match no row of the store `[rowDated]`, yet `get_total_count` — which
takes no date parameters at all — returns 1, not 0. -/
theorem get_total_count_ignores_dates_cx :
    ¬ (get_total_count { videos := [rowDated], search := [], cache := [] } "all" none
        = (List.filter (matchesListing "all" none (some "2025-01-01") none)
            [rowDated]).length) := by
  intro h
  have h1 : get_total_count { videos := [rowDated], search := [], cache := [] }
      "all" none = 1 := rfl
  have h2 : (List.filter (matchesListing "all" none (some "2025-01-01") none)
      [rowDated]).length = 0 := rfl
  rw [h1, h2] at h
  exact one_ne_zero h

/-- Claim C7 amended: the count operation returned in X-Total-Count equals
the number of rows matching the media-type and tag filters — i.e. the
listing's WHERE clause with no date range — independent of limit and offset
(which it never consults); when a date-from/date-to filter is supplied the
listing can match strictly fewer rows than the count reports. -/
theorem get_total_count_matches_undated_listing (db : DBState) (mt : String)
    (tag : Option String) :
    get_total_count db mt tag
      = (db.videos.filter (matchesListing mt tag none none)).length := by
  unfold get_total_count
  congr 1
  apply List.filter_congr
  intro r _
  simp [matchesCount, matchesListing]

/-! ## C5 — migration adds columns but does not backfill parent_folder -/

/-- A legacy row stored under "/a/b/c.mp4". -/
def legacyRowA : LegacyRow :=
  { path := "/a/b/c.mp4", filename := "c.mp4", size_mb := some 1,
    duration_sec := none, resolution := none, tags := some "t",
    summary := some "s", description := some "d", metadata := none,
    processed_at := some "2024-01-01" }

/-- Claim C5 counterexample: after opening a legacy store containing the row
stored at "/a/b/c.mp4", that row's parent_folder is NULL — `_migrate_schema`
only runs `ALTER TABLE … ADD COLUMN` and never backfills the column from the
stored path. -/
theorem migrate_parent_folder_not_backfilled_cx :
    ¬ (∀ r ∈ (openLegacyStore [legacyRowA]).videos,
        r.parent_folder = some (parentFolderName r.path)) := by
  intro h
  have := h (migrateRow legacyRowA) (by simp [openLegacyStore, migrate_schema])
  simp [migrateRow] at this

/-- Claim C5 amended: opening a store whose table lacks the four newer
columns adds each of them with its safe default — media_type 'video',
parent_folder/transcription/embedding NULL — and loses no data in any other
column; pre-existing rows' parent_folder is NOT backfilled from the stored
path (it stays NULL until the row is next upserted). -/
theorem migrate_schema_adds_columns (rows : List LegacyRow) :
    List.Forall₂ (fun (lr : LegacyRow) (r : Row) =>
        r.path = lr.path ∧ r.filename = lr.filename ∧ r.size_mb = lr.size_mb
        ∧ r.duration_sec = lr.duration_sec ∧ r.resolution = lr.resolution
        ∧ r.tags = lr.tags ∧ r.summary = lr.summary
        ∧ r.description = lr.description ∧ r.metadata = lr.metadata
        ∧ r.processed_at = lr.processed_at
        ∧ r.parent_folder = none ∧ r.media_type = some "video"
        ∧ r.transcription = none ∧ r.embedding = none)
      rows (openLegacyStore rows).videos := by
  show List.Forall₂ _ rows (rows.map migrateRow)
  induction rows with
  | nil => simp
  | cons lr rest ih =>
    rw [List.map_cons]
    exact List.Forall₂.cons (by simp [migrateRow]) ih

/-! ## C10 — the listing silently drops unparseable rows; the count does not -/

theorem length_filterMap_eq_count (f : α → Option β) (l : List α) :
    (l.filterMap f).length = (l.filter (fun a => (f a).isSome)).length := by
  induction l with
  | nil => rfl
  | cons x xs ih =>
    cases hx : f x <;> simp [List.filterMap_cons, hx, ih]

/-- A row whose metadata JSON column does not parse into a MediaItem. -/
def rowUnparseable : Row :=
  { path := "/u.mp4", filename := "u.mp4", size_mb := none, duration_sec := none,
    resolution := none, tags := none, summary := none, description := none,
    metadata := some (Json.str "not a record"), processed_at := some "2024-01-01",
    parent_folder := none, media_type := some "video", transcription := none,
    embedding := none }

/-- Claim C10 (implicit): the paged listing silently drops every row of the
LIMIT/OFFSET window whose metadata column fails to parse — the returned
page's length equals the number of parseable rows in the window, never
exceeds `limit`, and no error is raised (the operation is total) — so a page
can contain fewer than `limit` items while at least `limit` rows match the
filters; concretely, a store holding one matching row with unparseable
metadata yields an empty page at `limit = 1` while `get_total_count` still
reports 1. -/
theorem listing_drops_unparseable_rows (db : DBState) (limit offset : ℕ)
    (mt sort : String) (tag dFrom dTo : Option String) :
    ((get_all_media db limit offset mt sort tag dFrom dTo).length
      = ((listingPage db limit offset mt sort tag dFrom dTo).filter
          (fun r => (r.metadata.bind decodeMediaItem).isSome)).length)
    ∧ (get_all_media db limit offset mt sort tag dFrom dTo).length ≤ limit
    ∧ get_all_media { videos := [rowUnparseable], search := [], cache := [] }
        1 0 "all" "date_desc" none none none = []
    ∧ (List.filter (matchesListing "all" none none none) [rowUnparseable]).length = 1
    ∧ get_total_count { videos := [rowUnparseable], search := [], cache := [] }
        "all" none = 1 := by
  refine ⟨length_filterMap_eq_count _ _, ?_, rfl, rfl, rfl⟩
  calc (get_all_media db limit offset mt sort tag dFrom dTo).length
      ≤ (listingPage db limit offset mt sort tag dFrom dTo).length := by
        rw [get_all_media]
        exact List.length_filterMap_le _ _
    _ ≤ limit := by
        rw [listingPage]
        exact List.length_take_le _ _

/-! ## C4 — the upsert transaction commits before the cache update -/

/-- A concrete media record at path "/tmp/test.mp4" (a first write). -/
def itemFirst : MediaItem :=
  { media_type := .video,
    meta := { filename := "test.mp4", path := "/tmp/test.mp4", size_mb := 10,
              parent_folder := "tmp", duration_sec := some 60,
              resolution := some "1920x1080" },
    ai := some { description := "Flying over a field.", summary := "A test video",
                 tags := ["outdoors", "drone"] } }

/-- The same path written again with a changed summary (a second write). -/
def itemSecond : MediaItem :=
  { itemFirst with
    ai := some { description := "Flying over a field.",
                 summary := "Updated Summary", tags := ["outdoors", "drone"] } }

/-- Claim C4 counterexample: upserting with the 3-byte blob [1, 2, 3] makes
the float32 decode in the cache-update sub-step raise (np.frombuffer needs a
multiple of 4 bytes), so an exception occurs during the upsert and is logged
(the flag is true) — yet the durable row IS written afterwards, because the
two durable sub-steps were committed before the cache update ran; the three
sub-steps are not one transaction and the durable state is not left
unchanged. -/
theorem upsert_exception_keeps_committed_row_cx :
    (upsert_media { videos := [], search := [], cache := [] } itemFirst "t"
        (some [1, 2, 3])).2 = true
    ∧ ({ videos := [], search := [], cache := [] } : DBState).videos.length = 0
    ∧ (upsert_media { videos := [], search := [], cache := [] } itemFirst "t"
        (some [1, 2, 3])).1.videos.length = 1 :=
  ⟨rfl, rfl, rfl⟩

/-- Claim C4 amended: the upsert never raises to its caller (it is total in
the store state) and a record with an empty path is a silent no-op; the
base-row write and the shadow-row delete+reinsert are committed together
BEFORE the in-memory cache update, so when an exception occurs during the
upsert — the modelled one being the float32 decode of a blob whose byte
length is not a multiple of 4 — the error is only logged, the durable row
and shadow row retain the new values, and only the vector cache is left
unchanged. -/
theorem upsert_media_error_contract (db : DBState) (item : MediaItem)
    (now : String) (eb : Option (List ℕ)) :
    (item.meta.path = "" → upsert_media db item now eb = (db, false))
    ∧ ((upsert_media db item now eb).2 = true →
        (upsert_media db item now eb).1.videos = (upsertDurable db item now eb).videos
        ∧ (upsert_media db item now eb).1.search = (upsertDurable db item now eb).search
        ∧ (upsert_media db item now eb).1.cache = db.cache)
    ∧ ((upsert_media db item now eb).2 = true →
        ∃ bs, eb = some bs ∧ bs.length % 4 ≠ 0) := by
  refine ⟨fun h => by rw [upsert_media, if_pos h], ?_, ?_⟩
  · intro herr
    by_cases hp : item.meta.path = ""
    · rw [upsert_media, if_pos hp] at herr
      simp at herr
    · cases eb with
      | none =>
        simp only [upsert_media, if_neg hp] at herr
        simp at herr
      | some bs =>
        by_cases he : bs.isEmpty
        · simp only [upsert_media, if_neg hp, if_pos he] at herr
          simp at herr
        · by_cases hm : bs.length % 4 = 0
          · simp only [upsert_media, if_neg hp, if_neg he, if_pos hm] at herr
            simp at herr
          · simp only [upsert_media, if_neg hp, if_neg he, if_neg hm]
            exact ⟨trivial, trivial, rfl⟩
  · intro herr
    by_cases hp : item.meta.path = ""
    · rw [upsert_media, if_pos hp] at herr
      simp at herr
    · cases eb with
      | none =>
        simp only [upsert_media, if_neg hp] at herr
        simp at herr
      | some bs =>
        by_cases he : bs.isEmpty
        · simp only [upsert_media, if_neg hp, if_pos he] at herr
          simp at herr
        · by_cases hm : bs.length % 4 = 0
          · simp only [upsert_media, if_neg hp, if_neg he, if_pos hm] at herr
            simp at herr
          · exact ⟨bs, rfl, hm⟩

/-- A record whose path is empty. -/
def itemNoPath : MediaItem :=
  { media_type := .video,
    meta := { filename := "x", path := "", size_mb := 1, parent_folder := "" } }

theorem upsert_media_error_contract_witness :
    upsert_media { videos := [], search := [], cache := [] } itemNoPath "t" none
      = ({ videos := [], search := [], cache := [] }, false) :=
  (upsert_media_error_contract { videos := [], search := [], cache := [] }
    itemNoPath "t" none).1 rfl

/-! ## C6 — error taxonomy of `process_file` -/

/-- Claim C6: `process_file` raises the file-not-found condition, before any
processing work, for every path that does not exist — whatever every other
sub-step would do — and for an existing path every error it raises is the
single domain-specific ProcessingError condition (never not-found, never an
unclassified exception), produced in particular when the extension is
unrecognized, the model fails to load, frame/image extraction fails, or
inference fails. -/
theorem process_file_error_taxonomy (env : ProcEnv) (path : String) :
    (env.pathExists = false →
      process_file env path = .error (.fileNotFound ("File not found: " ++ path)))
    ∧ (env.pathExists = true → ∀ e, process_file env path = .error e →
        ∃ m, e = .processingError m)
    ∧ (env.pathExists = true → ∀ m, env.loadVlm = .error m →
        process_file env path
          = .error (.processingError ("Failed to load AI Model: " ++ m)))
    ∧ (env.pathExists = true → env.loadVlm = .ok () → classifyExt env.ext = none →
        process_file env path
          = .error (.processingError ("Unsupported file format: " ++ env.ext)))
    ∧ (env.pathExists = true → env.loadVlm = .ok () →
        classifyExt env.ext = some .video → ∀ m, env.videoStep = .error m →
        process_file env path
          = .error (.processingError ("Video Extraction Failed: " ++ m)))
    ∧ (env.pathExists = true → env.loadVlm = .ok () →
        classifyExt env.ext = some .image → ∀ m, env.imageStep = .error m →
        process_file env path
          = .error (.processingError ("Image Processing Failed: " ++ m)))
    ∧ (env.pathExists = true → env.loadVlm = .ok () →
        classifyExt env.ext = some .video → ∀ fr, env.videoStep = .ok fr →
        ∀ m, env.inferStep = .error m →
        process_file env path
          = .error (.processingError ("AI Inference Failed: " ++ m))) := by
  refine ⟨?_, ?_, ?_, ?_, ?_, ?_, ?_⟩
  · intro hex
    simp [process_file, hex]
  · intro hex e h
    simp only [process_file, hex, Bool.not_true, Bool.false_eq_true,
      if_false] at h
    rcases hl : env.loadVlm with m | u <;> rw [hl] at h
    · simp at h
      subst h
      exact ⟨_, rfl⟩
    · rcases hc : classifyExt env.ext with _ | mt <;> rw [hc] at h
      · simp at h
        subst h
        exact ⟨_, rfl⟩
      · cases mt with
        | video =>
          rcases hv : env.videoStep with mv | fr <;> rw [hv] at h
          · simp at h
            subst h
            exact ⟨_, rfl⟩
          · rcases hinf : env.inferStep with m2 | ai <;> rw [hinf] at h
            · simp at h
              subst h
              exact ⟨_, rfl⟩
            · rcases hb : env.embedStep with m3 | bs <;> rw [hb] at h
              · simp at h
                subst h
                exact ⟨_, rfl⟩
              · simp at h
        | image =>
          rcases hv : env.imageStep with mv | fm <;> rw [hv] at h
          · simp at h
            subst h
            exact ⟨_, rfl⟩
          · rcases hinf : env.inferStep with m2 | ai <;> rw [hinf] at h
            · simp at h
              subst h
              exact ⟨_, rfl⟩
            · rcases hb : env.embedStep with m3 | bs <;> rw [hb] at h
              · simp at h
                subst h
                exact ⟨_, rfl⟩
              · simp at h
        | unknown =>
          rcases hv : env.imageStep with mv | fm <;> rw [hv] at h
          · simp at h
            subst h
            exact ⟨_, rfl⟩
          · rcases hinf : env.inferStep with m2 | ai <;> rw [hinf] at h
            · simp at h
              subst h
              exact ⟨_, rfl⟩
            · rcases hb : env.embedStep with m3 | bs <;> rw [hb] at h
              · simp at h
                subst h
                exact ⟨_, rfl⟩
              · simp at h
  · intro hex m hl
    simp [process_file, hex, hl]
  · intro hex hl hc
    simp [process_file, hex, hl, hc]
  · intro hex hl hc m hv
    simp [process_file, hex, hl, hc, hv]
  · intro hex hl hc m hi
    simp [process_file, hex, hl, hc, hi]
  · intro hex hl hc fr hv m hi
    simp [process_file, hex, hl, hc, hv, hi]

/-- An environment for a path that does not exist on disk. -/
def envMissing : ProcEnv :=
  { pathExists := false, loadVlm := .ok (), ext := ".mp4",
    videoStep := .error "cv2 failure", imageStep := .error "PIL failure",
    inferStep := .error "inference failure", embedStep := .ok [],
    now := "t", elapsed := 0 }

theorem process_file_error_taxonomy_witness :
    process_file envMissing "/missing.mp4"
      = .error (.fileNotFound ("File not found: " ++ "/missing.mp4")) :=
  (process_file_error_taxonomy envMissing "/missing.mp4").1 rfl

/-! ## C8 — frame-sampling stride truncates; it does not round -/

/-- Claim C8 counterexample: at the determinable frame rate 1.9 fps with a
1-second interval, the code's stride is int(1.9 × 1) = 1 while
round(1.9 × 1) = 2, so the stride does not equal `round(fps × interval)`. -/
theorem stride_is_trunc_not_round_cx :
    ¬ (frameInterval (19/10) 1 = pyRoundZ ((19/10) * ((1 : ℕ) : ℚ))) := by
  have hf : ⌊(19 : ℚ)/10⌋ = 1 := by norm_num [Int.floor_eq_iff]
  have h1 : frameInterval (19/10) 1 = 1 := by
    rw [frameInterval, if_pos (by norm_num), pyIntTrunc, if_pos (by norm_num)]
    simpa using hf
  have h2 : pyRoundZ ((19/10) * ((1 : ℕ) : ℚ)) = 2 := by
    rw [pyRoundZ]
    norm_num [hf]
  intro h
  rw [h1, h2] at h
  exact absurd h (by decide)

theorem extractLoop_eq (stride maxFrames : ℕ) (frames : List FrameVar)
    (count kept : ℕ) :
    extractLoop stride maxFrames frames count kept
      = ((((idxFrom count frames).filter
          (fun iv => (iv.1 % stride == 0) && !(decide (iv.2 < 10)))).map
            Prod.fst).take (maxFrames - kept)) := by
  induction frames generalizing count kept with
  | nil => simp [extractLoop, idxFrom]
  | cons v rest ih =>
    rw [extractLoop, idxFrom]
    by_cases h1 : maxFrames ≤ kept
    · rw [if_pos h1]
      have h0 : maxFrames - kept = 0 := Nat.sub_eq_zero_of_le h1
      simp [h0]
    · rw [if_neg h1]
      by_cases h2 : count % stride = 0
      · rw [if_pos h2]
        by_cases h3 : v < 10
        · rw [if_pos h3, ih]
          simp [h2, h3]
        · rw [if_neg h3, ih, List.filter_cons,
            if_pos (show (((count, v).1 % stride == 0)
              && !(decide ((count, v).2 < 10))) = true by simp [h2, h3]),
            List.map_cons,
            show maxFrames - kept = (maxFrames - (kept + 1)) + 1 by omega,
            List.take_succ_cons]
      · rw [if_neg h2, ih]
        simp [h2]

/-- Claim C8 amended: the sampling stride is `int(fps × interval)` — Python
truncation toward zero, not rounding — whenever fps > 0, and 300 otherwise;
provided the stride is nonzero (a zero stride makes `count % frame_interval`
raise), the kept frames are exactly the first `maxFrames` frame indices that
are multiples of the stride and whose pixel variance is not below 10. -/
theorem extract_frames_spec (frames : List FrameVar) (fps : ℚ)
    (interval maxFrames : ℕ) (h : frameInterval fps interval ≠ 0) :
    extract_frames frames fps interval maxFrames
      = some ((((idxFrom 0 frames).filter
          (fun iv => (iv.1 % (frameInterval fps interval).toNat == 0)
            && !(decide (iv.2 < 10)))).map Prod.fst).take maxFrames)
    ∧ (0 < fps → frameInterval fps interval = pyIntTrunc (fps * (interval : ℚ)))
    ∧ (¬ 0 < fps → frameInterval fps interval = 300) := by
  refine ⟨?_, fun h0 => by rw [frameInterval, if_pos h0],
          fun h0 => by rw [frameInterval, if_neg h0]⟩
  rw [extract_frames, if_neg h, extractLoop_eq]
  simp

theorem extract_frames_spec_witness :
    frameInterval 2 1 ≠ 0
    ∧ extract_frames [(0 : ℚ), 50, 30, 20, 50] 2 1 2 = some [2, 4] := by
  have hs : frameInterval 2 1 = 2 := by
    rw [frameInterval, if_pos (by norm_num), pyIntTrunc, if_pos (by norm_num)]
    norm_num
  refine ⟨by rw [hs]; decide, ?_⟩
  have h := (extract_frames_spec [(0 : ℚ), 50, 30, 20, 50] 2 1 2
    (by rw [hs]; decide)).1
  rw [h, hs]
  have ht : Int.toNat 2 = 2 := rfl
  rw [ht]
  norm_num [idxFrom]

/-! ## C3 — upsert keyed on the path primary key: second write wins -/

theorem path_applyConflictUpdate (old r : Row) :
    (applyConflictUpdate old r).path = old.path := rfl

/-- Rows with pairwise-distinct paths (the PRIMARY KEY invariant). -/
def PathsDistinct (vs : List Row) : Prop := vs.Pairwise (fun a b => a.path ≠ b.path)

theorem pairwise_insertOnConflictPath (vs : List Row) (r : Row)
    (hwf : PathsDistinct vs) : PathsDistinct (insertOnConflictPath vs r) := by
  unfold insertOnConflictPath
  by_cases hany : vs.any (fun v => v.path == r.path) = true
  · rw [if_pos hany]
    unfold PathsDistinct
    rw [List.pairwise_map]
    apply hwf.imp
    intro a b hab
    have ha : (if a.path = r.path then applyConflictUpdate a r else a).path = a.path := by
      split <;> rfl
    have hb : (if b.path = r.path then applyConflictUpdate b r else b).path = b.path := by
      split <;> rfl
    rw [ha, hb]
    exact hab
  · rw [if_neg hany]
    unfold PathsDistinct
    rw [List.pairwise_append]
    refine ⟨hwf, by simp, ?_⟩
    intro a ha b hb
    have hbr : b = r := by simpa using hb
    subst hbr
    intro hc
    exact hany (List.any_eq_true.mpr ⟨a, ha, by simp [hc]⟩)

theorem filter_map_conflict (vs : List Row) (r : Row) (p : String) (hrp : r.path = p) :
    (vs.map (fun v => if v.path = r.path then applyConflictUpdate v r else v)).filter
        (fun v => v.path == p)
      = (vs.filter (fun v => v.path == p)).map (fun v => applyConflictUpdate v r) := by
  subst hrp
  induction vs with
  | nil => rfl
  | cons x xs ih =>
    rw [List.map_cons, List.filter_cons, List.filter_cons]
    by_cases hxp : x.path = r.path
    · rw [if_pos hxp]
      rw [if_pos (show ((applyConflictUpdate x r).path == r.path) = true by
        simp [path_applyConflictUpdate, hxp])]
      rw [if_pos (show (x.path == r.path) = true by simp [hxp])]
      rw [List.map_cons, ih]
    · rw [if_neg hxp]
      rw [if_neg (show ¬ (x.path == r.path) = true by simp [hxp])]
      rw [if_neg (show ¬ (x.path == r.path) = true by simp [hxp])]
      exact ih

theorem filter_path_unique (vs : List Row) (p : String)
    (hwf : PathsDistinct vs) (hmem : ∃ v ∈ vs, v.path = p) :
    ∃ v, vs.filter (fun w => w.path == p) = [v] ∧ v.path = p ∧ v ∈ vs := by
  induction vs with
  | nil => simp at hmem
  | cons x xs ih =>
    rcases List.pairwise_cons.mp hwf with ⟨hx, hxs⟩
    rw [List.filter_cons]
    by_cases hxp : x.path = p
    · rw [if_pos (by simp [hxp])]
      have hnil : xs.filter (fun w => w.path == p) = [] := by
        apply List.filter_eq_nil_iff.mpr
        intro w hw
        have hne := hx w hw
        simp only [beq_iff_eq]
        rw [← hxp]
        exact fun hc => hne hc.symm
      rw [hnil]
      exact ⟨x, rfl, hxp, List.mem_cons_self x xs⟩
    · rw [if_neg (by simp [hxp])]
      have hmem2 : ∃ v ∈ xs, v.path = p := by
        rcases hmem with ⟨v, hv, hvp⟩
        rcases List.mem_cons.mp hv with rfl | hvxs
        · exact absurd hvp hxp
        · exact ⟨v, hvxs, hvp⟩
      rcases ih hxs hmem2 with ⟨v, hfil, hvp, hvm⟩
      exact ⟨v, hfil, hvp, List.mem_cons_of_mem x hvm⟩

theorem filter_insertOnConflictPath (vs : List Row) (r : Row) (p : String)
    (hrp : r.path = p) (hwf : PathsDistinct vs) :
    ∃ w, (insertOnConflictPath vs r).filter (fun v => v.path == p) = [w]
      ∧ w.path = p ∧ w.tags = r.tags ∧ w.summary = r.summary
      ∧ w.description = r.description ∧ w.metadata = r.metadata
      ∧ w.processed_at = r.processed_at ∧ w.parent_folder = r.parent_folder
      ∧ w.transcription = r.transcription ∧ w.embedding = r.embedding
      ∧ w.media_type = r.media_type := by
  unfold insertOnConflictPath
  by_cases hany : vs.any (fun v => v.path == r.path) = true
  · rw [if_pos hany]
    rw [filter_map_conflict vs r p hrp]
    have hmem : ∃ v ∈ vs, v.path = p := by
      rcases List.any_eq_true.mp hany with ⟨v, hv, hvp⟩
      exact ⟨v, hv, by rw [← hrp]; exact beq_iff_eq.mp hvp⟩
    rcases filter_path_unique vs p hwf hmem with ⟨v, hfil, hvp, _⟩
    rw [hfil, List.map_cons, List.map_nil]
    exact ⟨applyConflictUpdate v r,
      rfl, by rw [path_applyConflictUpdate]; exact hvp,
      rfl, rfl, rfl, rfl, rfl, rfl, rfl, rfl, rfl⟩
  · rw [if_neg hany]
    rw [List.filter_append]
    have h1 : vs.filter (fun v => v.path == p) = [] := by
      apply List.filter_eq_nil_iff.mpr
      intro a ha hc
      exact hany (List.any_eq_true.mpr ⟨a, ha, by
        rw [hrp]
        exact hc⟩)
    have h2 : [r].filter (fun v => v.path == p) = [r] := by
      simp [hrp]
    rw [h1, h2, List.nil_append]
    exact ⟨r, rfl, hrp, rfl, rfl, rfl, rfl, rfl, rfl, rfl, rfl, rfl⟩

theorem upsert_media_videos (db : DBState) (item : MediaItem) (now : String)
    (eb : Option (List ℕ)) (hp : item.meta.path ≠ "") :
    (upsert_media db item now eb).1.videos
      = insertOnConflictPath db.videos (upsertNewRow item now eb) := by
  cases eb with
  | none =>
    simp only [upsert_media, if_neg hp]
    rfl
  | some bs =>
    by_cases he : bs.isEmpty
    · simp only [upsert_media, if_neg hp, if_pos he]
      rfl
    · by_cases hm : bs.length % 4 = 0
      · simp only [upsert_media, if_neg hp, if_neg he, if_pos hm]
        rfl
      · simp only [upsert_media, if_neg hp, if_neg he, if_neg hm]
        rfl

theorem upsert_media_pairwise (db : DBState) (item : MediaItem) (now : String)
    (eb : Option (List ℕ)) (hwf : PathsDistinct db.videos) :
    PathsDistinct (upsert_media db item now eb).1.videos := by
  by_cases hp : item.meta.path = ""
  · rw [upsert_media, if_pos hp]
    exact hwf
  · rw [upsert_media_videos db item now eb hp]
    exact pairwise_insertOnConflictPath _ _ hwf

/-- Claim C3: for a nonempty path and any two records with that path,
upserting the first and then the second leaves exactly one row for the path,
and that row's tags, summary, description, metadata, transcription and
embedding columns hold the second record's values (insert-or-replace keyed on
the path primary key; the store's rows are assumed path-distinct, the PRIMARY
KEY invariant). -/
theorem upsert_twice_second_wins (db : DBState) (item1 item2 : MediaItem)
    (now1 now2 : String) (eb1 eb2 : Option (List ℕ)) (p : String)
    (_h1 : item1.meta.path = p) (h2 : item2.meta.path = p) (hp : p ≠ "")
    (hwf : PathsDistinct db.videos) :
    (((upsert_media (upsert_media db item1 now1 eb1).1 item2 now2 eb2).1.videos.filter
        (fun v => v.path == p)).length = 1)
    ∧ ∀ w ∈ (upsert_media (upsert_media db item1 now1 eb1).1 item2 now2
          eb2).1.videos.filter (fun v => v.path == p),
        w.tags = some (prepTags item2) ∧ w.summary = some (prepSummary item2)
        ∧ w.description = some (prepDescription item2)
        ∧ w.metadata = some (encodeMediaItem item2)
        ∧ w.transcription = some (prepTranscription item2)
        ∧ w.embedding = eb2 := by
  have hp2 : item2.meta.path ≠ "" := by rw [h2]; exact hp
  have hwf1 : PathsDistinct (upsert_media db item1 now1 eb1).1.videos :=
    upsert_media_pairwise db item1 now1 eb1 hwf
  rw [upsert_media_videos _ item2 now2 eb2 hp2]
  rcases filter_insertOnConflictPath _ (upsertNewRow item2 now2 eb2) p h2 hwf1
    with ⟨w, hfil, _, htags, hsum, hdesc, hmeta, _, _, htr, hemb, _⟩
  rw [hfil]
  refine ⟨rfl, ?_⟩
  intro w' hw'
  have hw'w : w' = w := by simpa using hw'
  subst hw'w
  exact ⟨htags, hsum, hdesc, hmeta, htr, hemb⟩

theorem upsert_twice_second_wins_witness :
    (((upsert_media (upsert_media { videos := [], search := [], cache := [] }
          itemFirst "t1" none).1 itemSecond "t2" none).1.videos.filter
        (fun v => v.path == "/tmp/test.mp4")).length = 1)
    ∧ ∀ w ∈ (upsert_media (upsert_media { videos := [], search := [], cache := [] }
          itemFirst "t1" none).1 itemSecond "t2" none).1.videos.filter
        (fun v => v.path == "/tmp/test.mp4"),
        w.tags = some (prepTags itemSecond) ∧ w.summary = some (prepSummary itemSecond)
        ∧ w.description = some (prepDescription itemSecond)
        ∧ w.metadata = some (encodeMediaItem itemSecond)
        ∧ w.transcription = some (prepTranscription itemSecond)
        ∧ w.embedding = none :=
  upsert_twice_second_wins { videos := [], search := [], cache := [] }
    itemFirst itemSecond "t1" "t2" none none "/tmp/test.mp4" rfl rfl
    (by decide) List.Pairwise.nil

/-! ## C1 — hybrid search follows the reference scoring algorithm -/

theorem lookup_eq_none_of_not_mem_keys (l : List (String × ℚ)) (p : String)
    (h : p ∉ l.map Prod.fst) : l.lookup p = none := by
  induction l with
  | nil => rfl
  | cons x xs ih =>
    simp only [List.map_cons, List.mem_cons] at h
    push_neg at h
    rcases x with ⟨k, v⟩
    simp only [List.lookup]
    have hpk : (p == k) = false := by simpa using h.1
    rw [hpk]
    exact ih h.2

theorem mem_of_lookup_eq_some (l : List (String × ℚ)) (p : String) (s : ℚ)
    (h : l.lookup p = some s) : (p, s) ∈ l := by
  induction l with
  | nil => simp [List.lookup] at h
  | cons x xs ih =>
    rcases x with ⟨k, v⟩
    simp only [List.lookup] at h
    cases hk : p == k with
    | true =>
      rw [hk] at h
      have hpk : p = k := by simpa using hk
      have hvs : v = s := Option.some.inj h
      subst hpk
      subst hvs
      exact List.mem_cons_self _ _
    | false =>
      rw [hk] at h
      exact List.mem_cons_of_mem _ (ih h)

theorem vecStage_mem (cache : List (String × Vec)) (qunit : Option Vec)
    (limit : ℕ) (p : String) (s : ℚ)
    (h : (p, s) ∈ vecStage cache qunit limit) :
    SEARCH_CUTOFF < s ∧ ∃ q v, qunit = some q ∧ (p, v) ∈ cache ∧ s = dot v q := by
  cases qunit with
  | none => simp [vecStage] at h
  | some q =>
    rw [vecStage] at h
    by_cases hc : cache.isEmpty
    · rw [if_pos hc] at h
      simp at h
    · rw [if_neg hc] at h
      rcases List.mem_filter.mp h with ⟨hmem, hcut⟩
      refine ⟨by simpa using hcut, q, ?_⟩
      have hsims : (p, s) ∈ simsOf cache q := by
        rw [topSelect] at hmem
        by_cases hlen : limit < (simsOf cache q).length
        · rw [if_pos hlen] at hmem
          exact (mem_sortByDesc _ _ _).mp (List.take_subset _ _ hmem)
        · rwa [if_neg hlen] at hmem
      rcases List.mem_map.mp hsims with ⟨pv, hpv, heq⟩
      have hp1 : pv.1 = p := congrArg Prod.fst heq
      have hs1 : dot pv.2 q = s := congrArg Prod.snd heq
      refine ⟨pv.2, rfl, ?_, hs1.symm⟩
      rw [← hp1]
      exact hpv

theorem search_media_mem (db : DBState) (ftsPaths : List String)
    (qunit : Option Vec) (cache : List (String × Vec)) (limit : ℕ)
    (r : SearchResponse) (h : r ∈ search_media db ftsPaths qunit cache limit) :
    (r.path ∈ ftsPaths ∨ r.path ∈ (vecStage cache qunit limit).map Prod.fst)
    ∧ r.score = round3 (ftsScore ftsPaths r.path * SEARCH_FTS_WEIGHT
        + lookupScore (vecStage cache qunit limit) r.path * SEARCH_VEC_WEIGHT) := by
  simp only [search_media] at h
  have hmem : r ∈ sortByDesc (fun x => x.score)
      (((ftsPaths ++ ((vecStage cache qunit limit).map Prod.fst).filter
          (fun p => !ftsPaths.contains p)).dedup).filterMap
        (mkSearchResult db.videos ftsPaths (vecStage cache qunit limit))) :=
    List.take_subset _ _ h
  have hmem2 := (mem_sortByDesc _ r _).mp hmem
  rcases List.mem_filterMap.mp hmem2 with ⟨p, hpmem, hpr⟩
  have hpm : p ∈ ftsPaths ++ ((vecStage cache qunit limit).map Prod.fst).filter
      (fun q => !ftsPaths.contains q) := List.mem_dedup.mp hpmem
  rw [mkSearchResult] at hpr
  rcases hfind : db.videos.find? (fun row => row.path == p) with _ | row
  · rw [hfind] at hpr
    simp at hpr
  · rw [hfind] at hpr
    have hr : r = {
        filename := row.filename, path := p,
        score := round3 (ftsScore ftsPaths p * SEARCH_FTS_WEIGHT
          + lookupScore (vecStage cache qunit limit) p * SEARCH_VEC_WEIGHT),
        media_type := row.media_type.getD "", summary := row.summary.getD "",
        tags := splitTagsCol row.tags } := by
      have := Option.some.inj hpr
      exact this.symm
    have hrpath : r.path = p := by rw [hr]
    constructor
    · rw [hrpath]
      rcases List.mem_append.mp hpm with hl | hrr
      · exact Or.inl hl
      · exact Or.inr (List.mem_of_mem_filter hrr)
    · rw [hr]

/-- Claim C1: the hybrid search behaves as the reference algorithm describes:
(1) the semantic stage surfaces nothing when the query vector is absent or
its norm is zero; (2) it surfaces only cached paths whose cosine similarity
with the L2-normalized query vector is strictly above the 0.18 cutoff;
(3) every returned result's score is the blend
(keyword_score × 0.3) + (semantic_score × 0.7) rounded to 3 decimal places,
each term 0 when the stage did not surface the path (keyword score 1.0 when
it did); (4) results are sorted descending by score and (5) truncated to the
requested limit; hence (6) a path surfaced only by keyword match scores at
most 0.3 and (7) one surfaced only semantically at most 0.7 (cosine
similarities of unit vectors being at most 1, the hypothesis). -/
theorem search_media_matches_reference (db : DBState) (ftsPaths : List String)
    (cache : List (String × Vec)) (qunit : Option Vec) (limit : ℕ)
    (hsim : ∀ pv ∈ cache, ∀ q, qunit = some q → dot pv.2 q ≤ 1) :
    vecStage cache none limit = []
    ∧ (∀ p s, (p, s) ∈ vecStage cache qunit limit →
        SEARCH_CUTOFF < s ∧ ∃ q v, qunit = some q ∧ (p, v) ∈ cache ∧ s = dot v q)
    ∧ (∀ r ∈ search_media db ftsPaths qunit cache limit,
        r.score = round3 (ftsScore ftsPaths r.path * SEARCH_FTS_WEIGHT
          + lookupScore (vecStage cache qunit limit) r.path * SEARCH_VEC_WEIGHT))
    ∧ (search_media db ftsPaths qunit cache limit).Pairwise
        (fun a b => b.score ≤ a.score)
    ∧ (search_media db ftsPaths qunit cache limit).length ≤ limit
    ∧ (∀ r ∈ search_media db ftsPaths qunit cache limit,
        r.path ∉ (vecStage cache qunit limit).map Prod.fst →
        r.score ≤ SEARCH_FTS_WEIGHT)
    ∧ (∀ r ∈ search_media db ftsPaths qunit cache limit,
        r.path ∉ ftsPaths → r.score ≤ SEARCH_VEC_WEIGHT) := by
  refine ⟨rfl, fun p s h => vecStage_mem cache qunit limit p s h,
    fun r h => (search_media_mem db ftsPaths qunit cache limit r h).2, ?_, ?_, ?_, ?_⟩
  · have hs := sorted_sortByDesc (fun x : SearchResponse => x.score)
      (((ftsPaths ++ ((vecStage cache qunit limit).map Prod.fst).filter
          (fun p => !ftsPaths.contains p)).dedup).filterMap
        (mkSearchResult db.videos ftsPaths (vecStage cache qunit limit)))
    exact List.Pairwise.sublist (List.take_sublist _ _) hs
  · exact List.length_take_le _ _
  · intro r h hnv
    have hsc := (search_media_mem db ftsPaths qunit cache limit r h).2
    have hl0 : lookupScore (vecStage cache qunit limit) r.path = 0 := by
      rw [lookupScore, lookup_eq_none_of_not_mem_keys _ _ hnv]
      rfl
    rw [hsc, hl0]
    have hfle : ftsScore ftsPaths r.path ≤ 1 := by
      rw [ftsScore]
      split <;> norm_num
    have harg : ftsScore ftsPaths r.path * SEARCH_FTS_WEIGHT + 0 * SEARCH_VEC_WEIGHT
        ≤ ((300 : ℤ) : ℚ) / 1000 := by
      have hf0 : (0 : ℚ) ≤ ftsScore ftsPaths r.path := by
        rw [ftsScore]
        split <;> norm_num
      rw [SEARCH_FTS_WEIGHT, SEARCH_VEC_WEIGHT]
      push_cast
      nlinarith
    have := round3_le _ 300 harg
    rw [SEARCH_FTS_WEIGHT]
    calc round3 (ftsScore ftsPaths r.path * SEARCH_FTS_WEIGHT + 0 * SEARCH_VEC_WEIGHT)
        ≤ ((300 : ℤ) : ℚ) / 1000 := this
      _ = 3 / 10 := by norm_num
  · intro r h hnf
    have hsc := (search_media_mem db ftsPaths qunit cache limit r h).2
    have hf0 : ftsScore ftsPaths r.path = 0 := by
      rw [ftsScore, if_neg hnf]
    rw [hsc, hf0]
    have hvle : lookupScore (vecStage cache qunit limit) r.path ≤ 1 := by
      rw [lookupScore]
      rcases hlk : (vecStage cache qunit limit).lookup r.path with _ | s
      · norm_num
      · have hm := mem_of_lookup_eq_some _ _ _ hlk
        rcases vecStage_mem cache qunit limit r.path s hm with ⟨_, q, v, hq, hv, hs⟩
        have := hsim (r.path, v) hv q hq
        rw [hs]
        simpa using this
    have hv0 : (0 : ℚ) ≤ lookupScore (vecStage cache qunit limit) r.path ∨ True :=
      Or.inr trivial
    have harg : 0 * SEARCH_FTS_WEIGHT
        + lookupScore (vecStage cache qunit limit) r.path * SEARCH_VEC_WEIGHT
        ≤ ((700 : ℤ) : ℚ) / 1000 := by
      rw [SEARCH_FTS_WEIGHT, SEARCH_VEC_WEIGHT]
      push_cast
      nlinarith
    have := round3_le _ 700 harg
    rw [SEARCH_VEC_WEIGHT]
    calc round3 (0 * SEARCH_FTS_WEIGHT
          + lookupScore (vecStage cache qunit limit) r.path * SEARCH_VEC_WEIGHT)
        ≤ ((700 : ℤ) : ℚ) / 1000 := this
      _ = 7 / 10 := by norm_num

theorem search_media_matches_reference_witness :
    (∀ pv ∈ [("/cat.mp4", [(1 : ℚ), 0]), ("/dog.mp4", [(0 : ℚ), 1])],
      ∀ q, (some [(1 : ℚ), 0] : Option Vec) = some q → dot pv.2 q ≤ 1)
    ∧ (search_media { videos := [rowDated], search := [], cache := [] } ["/v.mp4"]
        (some [(1 : ℚ), 0]) [("/cat.mp4", [(1 : ℚ), 0]), ("/dog.mp4", [(0 : ℚ), 1])]
        50).length ≤ 50 := by
  have hsim : ∀ pv ∈ [("/cat.mp4", [(1 : ℚ), 0]), ("/dog.mp4", [(0 : ℚ), 1])],
      ∀ q, (some [(1 : ℚ), 0] : Option Vec) = some q → dot pv.2 q ≤ 1 := by
    intro pv hpv q hq
    have hq2 : q = [(1 : ℚ), 0] := (Option.some.inj hq).symm
    subst hq2
    rcases List.mem_cons.mp hpv with rfl | hpv2
    · norm_num [dot]
    · rcases List.mem_cons.mp hpv2 with rfl | hpv3
      · norm_num [dot]
      · simp at hpv3
  exact ⟨hsim, (search_media_matches_reference
    { videos := [rowDated], search := [], cache := [] } ["/v.mp4"]
    [("/cat.mp4", [(1 : ℚ), 0]), ("/dog.mp4", [(0 : ℚ), 1])]
    (some [(1 : ℚ), 0]) 50 hsim).2.2.2.2.1⟩

end BO
